import Mathlib

/-!
Verification of the envelope-follower signal pipeline
(`SignalProcessor.h` / `SignalProcessor.cpp` / `PluginProcessor.cpp`).

Doubles/floats are embedded as real numbers; C `tan` and `pow` become
`Real.tan` and real exponentiation; the C++ `(int)` cast becomes
truncation toward zero on `ℝ`.
-/

namespace EnvelopeFollower

/-- The `pi` constant of `Filter` in `SignalProcessor.h` (an approximation
of π hard-coded in the source). -/
def piApprox : ℝ := 3.1415926535

/-- The `Filter` struct of `SignalProcessor.h`, with its in-class default
member initializers. -/
structure Filter where
  prev_input : ℝ := 0
  prev_output : ℝ := 0
  cutoff_frequency : ℝ := 1000
  sampling_frequency : ℝ := 44100
  theta_c : ℝ := 0
  k : ℝ := 0
  alpha : ℝ := 0

/-- `Filter::calc_coeff`: recompute `theta_c`, `k`, `alpha` from the
cutoff and sampling frequencies. -/
noncomputable def Filter.calc_coeff (f : Filter) : Filter :=
  let theta := 2 * piApprox * f.cutoff_frequency / f.sampling_frequency
  let k := Real.tan (theta / 2)
  { f with theta_c := theta, k := k, alpha := 1 + k }

/-- `Filter::set_sampling_frequency`. -/
noncomputable def Filter.set_sampling_frequency (f : Filter) (new_freq : ℝ) : Filter :=
  Filter.calc_coeff { f with sampling_frequency := new_freq }

/-- `Filter::set_cutoff_frequency`. -/
noncomputable def Filter.set_cutoff_frequency (f : Filter) (new_freq : ℝ) : Filter :=
  Filter.calc_coeff { f with cutoff_frequency := new_freq }

/-- `Filter::calculate_lpf`: returns the output sample and the updated
filter state. -/
noncomputable def Filter.calculate_lpf (f : Filter) (new_sample : ℝ) : ℝ × Filter :=
  let a0 : ℝ := 1.0
  let a1 : ℝ := -(1.0 - f.k) / f.alpha
  let b0 : ℝ := f.k / f.alpha
  let b1 : ℝ := f.k / f.alpha
  let output := (1 / a0) * (b0 * new_sample + b1 * f.prev_input - a1 * f.prev_output)
  (output, { f with prev_input := new_sample, prev_output := output })

/-- `Filter::calculate_hpf`: returns the output sample and the updated
filter state. -/
noncomputable def Filter.calculate_hpf (f : Filter) (new_sample : ℝ) : ℝ × Filter :=
  let a0 : ℝ := 1.0
  let a1 : ℝ := -(1.0 - f.k) / f.alpha
  let b0 : ℝ := 1.0 / f.alpha
  let b1 : ℝ := -1.0 / f.alpha
  let output := (1 / a0) * (b0 * new_sample + b1 * f.prev_input - a1 * f.prev_output)
  (output, { f with prev_input := new_sample, prev_output := output })

/-- The `SignalProcessor` class state (`SignalProcessor.h`).  The `decay`
field carries its in-class initializer `0.99`; the remaining fields are
set by the constructor. -/
structure SignalProcessor where
  current_envelope_position : ℝ
  min_val : ℝ
  max_val : ℝ
  gain : ℝ
  sampling_frequency : ℝ
  decay : ℝ := 0.99
  lowFilter : Filter := {}
  highFilter : Filter := {}

/-- `SignalProcessor::SignalProcessor()`: default construction followed by
the constructor body of `SignalProcessor.cpp`. -/
def SignalProcessor.construct : SignalProcessor :=
  { current_envelope_position := 0.0
    min_val := 0.0
    max_val := 127.0
    gain := 1.0
    sampling_frequency := 44100
    decay := 0.99
    lowFilter := {}
    highFilter := {} }

/-- `SignalProcessor::updateEnvelopePosition`: decay the level, then raise
it to `|sample|` if that is larger. -/
noncomputable def SignalProcessor.updateEnvelopePosition
    (s : SignalProcessor) (sample : ℝ) : SignalProcessor :=
  let pos := s.current_envelope_position * s.decay
  if |sample| > pos then { s with current_envelope_position := |sample| }
  else { s with current_envelope_position := pos }

/-- `SignalProcessor::takeInSample`: gain, lowpass, highpass, envelope
update. -/
noncomputable def SignalProcessor.takeInSample
    (s : SignalProcessor) (sample : ℝ) : SignalProcessor :=
  let sample1 := sample * s.gain
  let lp := s.lowFilter.calculate_lpf sample1
  let hp := s.highFilter.calculate_hpf lp.1
  SignalProcessor.updateEnvelopePosition
    { s with lowFilter := lp.2, highFilter := hp.2 } hp.1

/-- The C++ `(int)` cast on a real value: truncation toward zero. -/
noncomputable def truncInt (x : ℝ) : ℤ :=
  if 0 ≤ x then ⌊x⌋ else ⌈x⌉

/-- `SignalProcessor::getEnvelopePosition`: scale the envelope into the
configured range, then clamp the truncated value between the truncated
bounds. -/
noncomputable def SignalProcessor.getEnvelopePosition (s : SignalProcessor) : ℤ :=
  let scaled_envelope_position :=
    s.current_envelope_position * (s.max_val - s.min_val) + s.min_val
  let low_bound := min (truncInt s.max_val) (truncInt s.min_val)
  let high_bound := max (truncInt s.min_val) (truncInt s.max_val)
  max (min (truncInt scaled_envelope_position) high_bound) low_bound

/-- `SignalProcessor::setMinValue`. -/
def SignalProcessor.setMinValue (s : SignalProcessor) (new_min : ℝ) : SignalProcessor :=
  { s with min_val := new_min }

/-- `SignalProcessor::setMaxValue`. -/
def SignalProcessor.setMaxValue (s : SignalProcessor) (new_max : ℝ) : SignalProcessor :=
  { s with max_val := new_max }

/-- `SignalProcessor::setGainValue`. -/
def SignalProcessor.setGainValue (s : SignalProcessor) (new_gain : ℝ) : SignalProcessor :=
  { s with gain := new_gain }

/-- `SignalProcessor::setLowpassValue`. -/
noncomputable def SignalProcessor.setLowpassValue (s : SignalProcessor) (lp_val : ℝ) : SignalProcessor :=
  { s with lowFilter := s.lowFilter.set_cutoff_frequency lp_val }

/-- `SignalProcessor::setHighpassValue`. -/
noncomputable def SignalProcessor.setHighpassValue (s : SignalProcessor) (hp_val : ℝ) : SignalProcessor :=
  { s with highFilter := s.highFilter.set_cutoff_frequency hp_val }

/-- `SignalProcessor::setRecoveryTimeValue`: clamp the recovery time up to
one millisecond, then set `decay = 2 ^ (-1 / (recovery_time * sampling_frequency))`. -/
noncomputable def SignalProcessor.setRecoveryTimeValue
    (s : SignalProcessor) (recovery_time : ℝ) : SignalProcessor :=
  let rt := max recovery_time 0.001
  let num_samples := rt * s.sampling_frequency
  { s with decay := (2 : ℝ) ^ (-1 / num_samples) }

/-- `SignalProcessor::setSamplingFrequency`: store the frequency and relay
it to both filters (which recompute their coefficients). -/
noncomputable def SignalProcessor.setSamplingFrequency
    (s : SignalProcessor) (freq : ℝ) : SignalProcessor :=
  { s with sampling_frequency := freq
           lowFilter := s.lowFilter.set_sampling_frequency freq
           highFilter := s.highFilter.set_sampling_frequency freq }

/-- Feeding `n` zero samples directly to the envelope update
(`updateEnvelopePosition(0)` iterated `n` times). -/
noncomputable def SignalProcessor.feedZeros (s : SignalProcessor) : ℕ → SignalProcessor
  | 0 => s
  | n + 1 => (s.updateEnvelopePosition 0).feedZeros n

/-- One operation of the `SignalProcessor` public interface. -/
inductive Op where
  | takeIn (x : ℝ)
  | setMin (v : ℝ)
  | setMax (v : ℝ)
  | setGain (v : ℝ)
  | setLowpass (v : ℝ)
  | setHighpass (v : ℝ)
  | setRecovery (v : ℝ)
  | setSampling (v : ℝ)

/-- Dispatch one interface operation to the corresponding method. -/
noncomputable def SignalProcessor.applyOp (s : SignalProcessor) : Op → SignalProcessor
  | .takeIn x => s.takeInSample x
  | .setMin v => s.setMinValue v
  | .setMax v => s.setMaxValue v
  | .setGain v => s.setGainValue v
  | .setLowpass v => s.setLowpassValue v
  | .setHighpass v => s.setHighpassValue v
  | .setRecovery v => s.setRecoveryTimeValue v
  | .setSampling v => s.setSamplingFrequency v

/-- Run a sequence of interface operations. -/
noncomputable def SignalProcessor.runOps (s : SignalProcessor) : List Op → SignalProcessor
  | [] => s
  | op :: rest => (s.applyOp op).runOps rest

/-- The envelope invariant: non-negative level, strictly positive decay. -/
def EnvInv (s : SignalProcessor) : Prop :=
  0 ≤ s.current_envelope_position ∧ 0 < s.decay

lemma updateEnvelopePosition_decay (s : SignalProcessor) (x : ℝ) :
    (s.updateEnvelopePosition x).decay = s.decay := by
  unfold SignalProcessor.updateEnvelopePosition
  by_cases h : |x| > s.current_envelope_position * s.decay <;> simp [h]

lemma updateEnvelopePosition_filters (s : SignalProcessor) (x : ℝ) :
    (s.updateEnvelopePosition x).lowFilter = s.lowFilter ∧
    (s.updateEnvelopePosition x).highFilter = s.highFilter := by
  unfold SignalProcessor.updateEnvelopePosition
  by_cases h : |x| > s.current_envelope_position * s.decay <;> simp [h]

lemma takeInSample_lowFilter (s : SignalProcessor) (x : ℝ) :
    (s.takeInSample x).lowFilter
      = (s.lowFilter.calculate_lpf (x * s.gain)).2 := by
  unfold SignalProcessor.takeInSample
  rw [(updateEnvelopePosition_filters _ _).1]

lemma takeInSample_highFilter (s : SignalProcessor) (x : ℝ) :
    (s.takeInSample x).highFilter
      = (s.highFilter.calculate_hpf
          ((s.lowFilter.calculate_lpf (x * s.gain)).1)).2 := by
  unfold SignalProcessor.takeInSample
  rw [(updateEnvelopePosition_filters _ _).2]

lemma updateEnvelopePosition_nonneg (s : SignalProcessor) (x : ℝ)
    (hl : 0 ≤ s.current_envelope_position) (hd : 0 ≤ s.decay) :
    0 ≤ (s.updateEnvelopePosition x).current_envelope_position := by
  unfold SignalProcessor.updateEnvelopePosition
  by_cases h : |x| > s.current_envelope_position * s.decay
  · rw [if_pos h]
    exact abs_nonneg x
  · rw [if_neg h]
    exact mul_nonneg hl hd

lemma applyOp_inv (s : SignalProcessor) (op : Op) (h : EnvInv s) :
    EnvInv (s.applyOp op) := by
  obtain ⟨hl, hd⟩ := h
  cases op with
  | takeIn x =>
      refine ⟨updateEnvelopePosition_nonneg _ _ hl hd.le, ?_⟩
      rw [SignalProcessor.applyOp, SignalProcessor.takeInSample,
        updateEnvelopePosition_decay]
      exact hd
  | setMin v => exact ⟨hl, hd⟩
  | setMax v => exact ⟨hl, hd⟩
  | setGain v => exact ⟨hl, hd⟩
  | setLowpass v => exact ⟨hl, hd⟩
  | setHighpass v => exact ⟨hl, hd⟩
  | setRecovery v =>
      refine ⟨hl, ?_⟩
      show (0 : ℝ) < (2 : ℝ) ^ _
      exact Real.rpow_pos_of_pos (by norm_num) _
  | setSampling v => exact ⟨hl, hd⟩

lemma runOps_inv (s : SignalProcessor) (ops : List Op) (h : EnvInv s) :
    EnvInv (s.runOps ops) := by
  induction ops generalizing s with
  | nil => exact h
  | cons op rest ih => exact ih _ (applyOp_inv s op h)

lemma feedZeros_level (s : SignalProcessor) (n : ℕ)
    (hl : 0 ≤ s.current_envelope_position) (hd : 0 ≤ s.decay) :
    (s.feedZeros n).current_envelope_position
      = s.current_envelope_position * s.decay ^ n := by
  induction n generalizing s with
  | zero => simp [SignalProcessor.feedZeros]
  | succ n ih =>
      rw [SignalProcessor.feedZeros]
      have hpos : ¬ (|(0 : ℝ)| > s.current_envelope_position * s.decay) := by
        simpa using mul_nonneg hl hd
      have hupd : s.updateEnvelopePosition 0 =
          { s with current_envelope_position :=
              s.current_envelope_position * s.decay } := by
        unfold SignalProcessor.updateEnvelopePosition
        rw [if_neg hpos]
      rw [hupd, ih { s with current_envelope_position :=
            s.current_envelope_position * s.decay }
          (mul_nonneg hl hd) hd]
      show s.current_envelope_position * s.decay * s.decay ^ n
          = s.current_envelope_position * s.decay ^ (n + 1)
      ring

/-- The decimation/orchestration state of `EnvelopeFollowerAudioProcessor`
(`PluginProcessor.h` / `PluginProcessor.cpp`): the owned `SignalProcessor`
plus the MIDI-rate counters.  GUI, MIDI transport and persisted-state
members are outside the modelled core. -/
structure AudioProcessor where
  signalProcessor : SignalProcessor
  midi_message_rate : ℝ
  samples_per_midi_message : ℤ
  elapsed_since_midi : ℤ
  elapsed_since_drawer : ℤ
  midi_value : ℤ

/-- The `EnvelopeFollowerAudioProcessor` constructor: owns a
default-constructed `SignalProcessor` and sets `midi_message_rate = 10`.
The counter fields have no initializer in the source (they are set by
`prepareToPlay`), so their pre-prepare values are taken as arguments. -/
def AudioProcessor.construct (samples_per elapsed elapsed_d : ℤ) : AudioProcessor :=
  { signalProcessor := SignalProcessor.construct
    midi_message_rate := 10
    samples_per_midi_message := samples_per
    elapsed_since_midi := elapsed
    elapsed_since_drawer := elapsed_d
    midi_value := 0 }

/-- `EnvelopeFollowerAudioProcessor::prepareToPlay` (core state only):
relay the sampling frequency, recompute `samples_per_midi_message`, and
reset the elapsed counters. -/
noncomputable def AudioProcessor.prepareToPlay
    (p : AudioProcessor) (sampleRate : ℝ) : AudioProcessor :=
  { p with signalProcessor := p.signalProcessor.setSamplingFrequency sampleRate
           samples_per_midi_message := truncInt (sampleRate / p.midi_message_rate)
           elapsed_since_midi := 0
           elapsed_since_drawer := 0 }

/-- One iteration of the per-sample loop of
`EnvelopeFollowerAudioProcessor::processBlock` (after channel averaging):
feed the sample, bump the counters, and on reaching
`samples_per_midi_message` reset the counter, latch the mapped value and
signal an emission. -/
noncomputable def AudioProcessor.processOneSample
    (p : AudioProcessor) (sample : ℝ) : AudioProcessor × Bool :=
  let p1 := { p with signalProcessor := p.signalProcessor.takeInSample sample
                     elapsed_since_midi := p.elapsed_since_midi + 1
                     elapsed_since_drawer := p.elapsed_since_drawer + 1 }
  if p1.elapsed_since_midi = p1.samples_per_midi_message then
    ({ p1 with elapsed_since_midi := 0
               midi_value := p1.signalProcessor.getEnvelopePosition }, true)
  else (p1, false)

/-- Run the per-sample loop over a list of (channel-averaged) samples,
collecting the per-sample emission flags. -/
noncomputable def AudioProcessor.processList
    (p : AudioProcessor) : List ℝ → AudioProcessor × List Bool
  | [] => (p, [])
  | x :: xs =>
      let r := p.processOneSample x
      let rest := r.1.processList xs
      (rest.1, r.2 :: rest.2)

/-- The pure counter dynamics of the decimator: from counter value `e`,
the emission flags produced over the next `n` samples. -/
def tickFlags (S : ℤ) : ℤ → ℕ → List Bool
  | _, 0 => []
  | e, n + 1 =>
      if e + 1 = S then true :: tickFlags S 0 n
      else false :: tickFlags S (e + 1) n

lemma processOneSample_fst (p : AudioProcessor) (x : ℝ) :
    (p.processOneSample x).1.samples_per_midi_message
        = p.samples_per_midi_message ∧
    (p.processOneSample x).1.elapsed_since_midi
        = (if p.elapsed_since_midi + 1 = p.samples_per_midi_message then 0
           else p.elapsed_since_midi + 1) ∧
    (p.processOneSample x).2
        = decide (p.elapsed_since_midi + 1 = p.samples_per_midi_message) := by
  unfold AudioProcessor.processOneSample
  by_cases h : p.elapsed_since_midi + 1 = p.samples_per_midi_message <;>
    simp [h]

lemma processList_flags (p : AudioProcessor) (xs : List ℝ) :
    (p.processList xs).2
      = tickFlags p.samples_per_midi_message p.elapsed_since_midi xs.length := by
  induction xs generalizing p with
  | nil => rfl
  | cons x xs ih =>
      obtain ⟨hS, he, hflag⟩ := processOneSample_fst p x
      show ((p.processOneSample x).2 ::
          ((p.processOneSample x).1.processList xs).2)
        = tickFlags p.samples_per_midi_message p.elapsed_since_midi (xs.length + 1)
      rw [ih, hS, he, hflag]
      by_cases h : p.elapsed_since_midi + 1 = p.samples_per_midi_message <;>
        simp [tickFlags, h]

lemma tickFlags_getD (S : ℤ) (hS : 0 < S) :
    ∀ (n : ℕ) (e : ℤ), 0 ≤ e → e < S → ∀ i : ℕ, i < n →
      ((tickFlags S e n).getD i false = true ↔ S ∣ (e + i + 1)) := by
  intro n
  induction n with
  | zero => intro e _ _ i hi; omega
  | succ n ih =>
      intro e he0 heS i hi
      by_cases h : e + 1 = S
      · rw [tickFlags, if_pos h]
        cases i with
        | zero =>
            have hz : e + ((0 : ℕ) : ℤ) + 1 = S := by push_cast; omega
            rw [List.getD_cons_zero, hz]
            simp
        | succ j =>
            rw [List.getD_cons_succ, ih 0 le_rfl hS j (by omega)]
            have harith : e + ((j + 1 : ℕ) : ℤ) + 1 = S + (0 + (j : ℤ) + 1) := by
              push_cast
              omega
            rw [harith]
            exact (dvd_add_right (dvd_refl S)).symm
      · rw [tickFlags, if_neg h]
        cases i with
        | zero =>
            have hz : e + ((0 : ℕ) : ℤ) + 1 = e + 1 := by push_cast; ring
            rw [List.getD_cons_zero, hz]
            constructor
            · intro hcontra
              simp at hcontra
            · intro hdvd
              have h1 : S ≤ e + 1 := Int.le_of_dvd (by omega) hdvd
              exact (h (by omega)).elim
        | succ j =>
            rw [List.getD_cons_succ, ih (e + 1) (by omega) (by omega) j (by omega)]
            have harith : e + 1 + (j : ℤ) + 1 = e + ((j + 1 : ℕ) : ℤ) + 1 := by
              push_cast
              ring
            rw [harith]

lemma tickFlags_count (S : ℤ) (hS : 0 < S) :
    ∀ (n : ℕ) (e : ℤ), 0 ≤ e → e < S →
      (((tickFlags S e n).count true : ℤ) = (e + n) / S) := by
  intro n
  induction n with
  | zero =>
      intro e he0 heS
      show ((0 : ℕ) : ℤ) = (e + 0) / S
      rw [add_zero, Int.ediv_eq_zero_of_lt he0 heS]
      rfl
  | succ n ih =>
      intro e he0 heS
      by_cases h : e + 1 = S
      · rw [tickFlags, if_pos h]
        have hcount : ((true :: tickFlags S 0 n).count true : ℤ)
            = ((tickFlags S 0 n).count true : ℤ) + 1 := by
          rw [List.count_cons]
          push_cast
          simp
        rw [hcount, ih 0 le_rfl hS]
        have harith : e + ((n : ℤ) + 1) = (0 + (n : ℤ)) + S * 1 := by omega
        push_cast
        rw [harith, Int.add_mul_ediv_left _ _ (by omega : S ≠ 0)]
      · rw [tickFlags, if_neg h]
        have hcount : ((false :: tickFlags S (e + 1) n).count true : ℤ)
            = ((tickFlags S (e + 1) n).count true : ℤ) := by
          rw [List.count_cons]
          simp
        rw [hcount, ih (e + 1) (by omega) (by omega)]
        congr 1
        push_cast
        ring

/-- `truncInt` is monotone. -/
lemma truncInt_mono : Monotone truncInt := by
  intro x y hxy
  unfold truncInt
  by_cases hx : (0 : ℝ) ≤ x
  · have hy : (0 : ℝ) ≤ y := le_trans hx hxy
    simpa [hx, hy] using Int.floor_mono hxy
  · by_cases hy : (0 : ℝ) ≤ y
    · simp only [hx, hy, if_true, if_false]
      have h1 : ⌈x⌉ ≤ (0 : ℤ) := by
        rw [Int.ceil_le]
        exact_mod_cast le_of_lt (not_le.mp hx)
      have h2 : (0 : ℤ) ≤ ⌊y⌋ := Int.floor_nonneg.mpr hy
      omega
    · simpa [hx, hy] using Int.ceil_mono hxy

/-- Claim C1: on a filter state whose coefficients were last computed by
`calc_coeff`, one lowpass step returns
`(k/alpha)*sample + (k/alpha)*prev_input + ((1-k)/alpha)*prev_output`,
one highpass step returns
`(1/alpha)*sample - (1/alpha)*prev_input + ((1-k)/alpha)*prev_output`,
with `theta_c = 2*pi*cutoff/sampling`, `k = tan(theta_c/2)`, `alpha = 1+k`
(`pi` being the source's constant), and each step stores the input as
`prev_input` and the returned value as `prev_output`. -/
theorem C1_filter_step_formulas (f0 : Filter) (x : ℝ) :
    let f := f0.calc_coeff
    f.theta_c = 2 * piApprox * f0.cutoff_frequency / f0.sampling_frequency ∧
    f.k = Real.tan (f.theta_c / 2) ∧
    f.alpha = 1 + f.k ∧
    (f.calculate_lpf x).1 =
      (f.k / f.alpha) * x + (f.k / f.alpha) * f.prev_input +
        ((1 - f.k) / f.alpha) * f.prev_output ∧
    (f.calculate_lpf x).2 =
      { f with prev_input := x, prev_output := (f.calculate_lpf x).1 } ∧
    (f.calculate_hpf x).1 =
      (1 / f.alpha) * x - (1 / f.alpha) * f.prev_input +
        ((1 - f.k) / f.alpha) * f.prev_output ∧
    (f.calculate_hpf x).2 =
      { f with prev_input := x, prev_output := (f.calculate_hpf x).1 } := by
  refine ⟨rfl, rfl, rfl, ?_, rfl, ?_, rfl⟩
  · simp only [Filter.calculate_lpf]
    ring
  · simp only [Filter.calculate_hpf]
    ring

/-- Claim C2: one envelope update multiplies the level by the decay
coefficient and then takes the max with `|sample|`; whenever `|sample|`
exceeds the decayed level, the new level is exactly `|sample|`. -/
theorem C2_envelope_update (s : SignalProcessor) (sample : ℝ) :
    (s.updateEnvelopePosition sample).current_envelope_position =
      max (s.current_envelope_position * s.decay) |sample| ∧
    (|sample| > s.current_envelope_position * s.decay →
      (s.updateEnvelopePosition sample).current_envelope_position = |sample|) := by
  constructor
  · unfold SignalProcessor.updateEnvelopePosition
    by_cases h : |sample| > s.current_envelope_position * s.decay
    · simp [h, max_eq_right (le_of_lt h)]
    · simp [h, max_eq_left (not_lt.mp h)]
  · intro h
    unfold SignalProcessor.updateEnvelopePosition
    simp [h]

/-- Witness for C2 at a concrete state and sample. -/
theorem C2_envelope_update_witness :
    (SignalProcessor.construct.updateEnvelopePosition 5).current_envelope_position
      = |(5 : ℝ)| :=
  (C2_envelope_update SignalProcessor.construct 5).2 (by
    show |(5 : ℝ)| > SignalProcessor.construct.current_envelope_position * _
    norm_num [SignalProcessor.construct, abs_of_nonneg])

/-- Claim C3: `setRecoveryTimeValue` clamps the recovery time up to
`0.001` and sets `decay = 2 ^ (-1/(T*Fs))`; that decay raised to the
`T*Fs` power is exactly `1/2`, so feeding `T*Fs` zero samples after the
level is at `L` brings it to exactly `L/2`. -/
theorem C3_half_life (s : SignalProcessor) (T L : ℝ) (n : ℕ)
    (hT : (0.001 : ℝ) ≤ T) (hFs : 0 < s.sampling_frequency)
    (hn : (n : ℝ) = T * s.sampling_frequency) (hL : 0 ≤ L) :
    (s.setRecoveryTimeValue T).decay
        = (2 : ℝ) ^ (-1 / (T * s.sampling_frequency)) ∧
    (s.setRecoveryTimeValue T).decay ^ (T * s.sampling_frequency) = 1 / 2 ∧
    (({ s.setRecoveryTimeValue T with current_envelope_position := L
        : SignalProcessor }).feedZeros n).current_envelope_position = L / 2 := by
  have hTpos : (0 : ℝ) < T := lt_of_lt_of_le (by norm_num) hT
  have hprod : (0 : ℝ) < T * s.sampling_frequency := mul_pos hTpos hFs
  have hmax : max T (0.001 : ℝ) = T := max_eq_left hT
  have hdecay : (s.setRecoveryTimeValue T).decay
      = (2 : ℝ) ^ (-1 / (T * s.sampling_frequency)) := by
    unfold SignalProcessor.setRecoveryTimeValue
    rw [hmax]
  have hexp : (-1 / (T * s.sampling_frequency)) * (T * s.sampling_frequency)
      = (-1 : ℝ) := by
    field_simp
  have hpow : ((2 : ℝ) ^ (-1 / (T * s.sampling_frequency)))
      ^ (T * s.sampling_frequency) = 1 / 2 := by
    rw [← Real.rpow_mul (by norm_num : (0 : ℝ) ≤ 2), hexp]
    norm_num [Real.rpow_neg_one]
  refine ⟨hdecay, by rw [hdecay]; exact hpow, ?_⟩
  have hdnn : (0 : ℝ) ≤ (s.setRecoveryTimeValue T).decay := by
    rw [hdecay]
    exact (Real.rpow_pos_of_pos (by norm_num) _).le
  have hfeed := feedZeros_level
    { s.setRecoveryTimeValue T with current_envelope_position := L } n hL hdnn
  rw [hfeed]
  show L * (s.setRecoveryTimeValue T).decay ^ n = L / 2
  have hnpow : (s.setRecoveryTimeValue T).decay ^ n = 1 / 2 := by
    rw [← Real.rpow_natCast ((s.setRecoveryTimeValue T).decay) n, hn, hdecay, hpow]
  rw [hnpow]
  ring

/-- Witness for C3 at the constructed state, recovery time `1`, level `1`,
and `n = 44100` samples. -/
theorem C3_half_life_witness :
    (SignalProcessor.construct.setRecoveryTimeValue 1).decay
        = (2 : ℝ) ^ (-1 / ((1 : ℝ) * SignalProcessor.construct.sampling_frequency)) ∧
    (SignalProcessor.construct.setRecoveryTimeValue 1).decay
        ^ ((1 : ℝ) * SignalProcessor.construct.sampling_frequency) = 1 / 2 ∧
    (({ SignalProcessor.construct.setRecoveryTimeValue 1 with
          current_envelope_position := (1 : ℝ) : SignalProcessor }).feedZeros
        44100).current_envelope_position = 1 / 2 :=
  C3_half_life SignalProcessor.construct 1 1 44100 (by norm_num)
    (by norm_num [SignalProcessor.construct])
    (by norm_num [SignalProcessor.construct]) (by norm_num)

/-- Claim C9: from the constructed initial state (level `0`), any sequence
of interface operations (sample intake or parameter setters) keeps the
envelope level non-negative. -/
theorem C9_envelope_nonneg (ops : List Op) :
    0 ≤ (SignalProcessor.construct.runOps ops).current_envelope_position :=
  (runOps_inv SignalProcessor.construct ops
    ⟨by norm_num [SignalProcessor.construct],
     by norm_num [SignalProcessor.construct]⟩).1

/-- Claim C4 (amended): the mapped integer equals the truncation of the
clamp of `level*(max-min)+min` to the sorted real bounds, and it always
lies between the truncations of the sorted bounds (not between the real
bounds themselves). -/
theorem C4_mapping (s : SignalProcessor) :
    s.getEnvelopePosition =
      truncInt (max (min (s.current_envelope_position * (s.max_val - s.min_val)
          + s.min_val) (max s.min_val s.max_val)) (min s.min_val s.max_val)) ∧
    truncInt (min s.min_val s.max_val) ≤ s.getEnvelopePosition ∧
    s.getEnvelopePosition ≤ truncInt (max s.min_val s.max_val) := by
  have hmin : ∀ a b : ℝ, truncInt (min a b) = min (truncInt a) (truncInt b) :=
    fun a b => truncInt_mono.map_min
  have hmax : ∀ a b : ℝ, truncInt (max a b) = max (truncInt a) (truncInt b) :=
    fun a b => truncInt_mono.map_max
  have hform : s.getEnvelopePosition =
      truncInt (max (min (s.current_envelope_position * (s.max_val - s.min_val)
          + s.min_val) (max s.min_val s.max_val)) (min s.min_val s.max_val)) := by
    rw [hmax, hmin, hmax, hmin]
    unfold SignalProcessor.getEnvelopePosition
    rw [min_comm (truncInt s.min_val) (truncInt s.max_val)]
  refine ⟨hform, ?_, ?_⟩
  · rw [hform]
    exact truncInt_mono (le_max_right _ _)
  · rw [hform]
    exact truncInt_mono (max_le (min_le_right _ _) min_le_max)

/-- Counterexample to C4 as stated: with `min_val = 0.5`, `max_val = 2.5`
and level `0`, the mapped value is `0`, which is **below** the real lower
bound `min(0.5, 2.5) = 0.5`, so the result does not lie within the real
interval of the sorted bounds. -/
theorem C4_mapping_counterexample :
    ({ SignalProcessor.construct with min_val := 0.5, max_val := 2.5
       : SignalProcessor }).getEnvelopePosition = 0 ∧
    ¬ (min (0.5 : ℝ) 2.5 ≤
        (({ SignalProcessor.construct with min_val := 0.5, max_val := 2.5
            : SignalProcessor }).getEnvelopePosition : ℝ)) := by
  have hfloor1 : ⌊(0.5 : ℝ)⌋ = 0 := by
    rw [Int.floor_eq_iff]
    norm_num
  have hfloor2 : ⌊(2.5 : ℝ)⌋ = 2 := by
    rw [Int.floor_eq_iff]
    norm_num
  have hval : ({ SignalProcessor.construct with min_val := 0.5, max_val := 2.5
      : SignalProcessor }).getEnvelopePosition = 0 := by
    unfold SignalProcessor.getEnvelopePosition
    simp only [SignalProcessor.construct, truncInt]
    norm_num [hfloor1, hfloor2]
  refine ⟨hval, ?_⟩
  rw [hval]
  norm_num

/-- Claim C5: after `prepareToPlay`, `samples_per_midi_message` is the
truncation of `sampleRate / midi_message_rate` and the counter starts at
`0`; over any `N` processed samples (with `S > 0`) exactly `⌊N/S⌋`
emissions occur, exactly at the samples whose 1-based index is a multiple
of `S`. -/
theorem C5_decimation (p : AudioProcessor) (sampleRate : ℝ) (samples : List ℝ)
    (hS : 0 < (p.prepareToPlay sampleRate).samples_per_midi_message) :
    (p.prepareToPlay sampleRate).samples_per_midi_message
        = truncInt (sampleRate / p.midi_message_rate) ∧
    (p.prepareToPlay sampleRate).elapsed_since_midi = 0 ∧
    ((((p.prepareToPlay sampleRate).processList samples).2.count true : ℤ)
        = (samples.length : ℤ)
            / (p.prepareToPlay sampleRate).samples_per_midi_message) ∧
    (∀ i : ℕ, i < samples.length →
      ((((p.prepareToPlay sampleRate).processList samples).2.getD i false = true)
        ↔ (p.prepareToPlay sampleRate).samples_per_midi_message ∣ ((i : ℤ) + 1))) := by
  refine ⟨rfl, rfl, ?_, ?_⟩
  · rw [processList_flags]
    have := tickFlags_count _ hS samples.length 0 le_rfl hS
    rw [show (p.prepareToPlay sampleRate).elapsed_since_midi = 0 from rfl, this,
      zero_add]
  · intro i hi
    rw [processList_flags]
    have := tickFlags_getD _ hS samples.length 0 le_rfl hS i hi
    rw [show (p.prepareToPlay sampleRate).elapsed_since_midi = 0 from rfl, this,
      zero_add]

/-- Witness for C5: sampling frequency `30`, event rate `10`, so `S = 3`;
over four samples exactly one emission occurs. -/
theorem C5_decimation_witness :
    0 < ((AudioProcessor.construct 0 0 0).prepareToPlay 30).samples_per_midi_message ∧
    (((((AudioProcessor.construct 0 0 0).prepareToPlay 30).processList
          [0, 0, 0, 0]).2.count true : ℤ)
        = (([0, 0, 0, 0] : List ℝ).length : ℤ)
            / ((AudioProcessor.construct 0 0 0).prepareToPlay 30).samples_per_midi_message) := by
  have hS3 : ((AudioProcessor.construct 0 0 0).prepareToPlay 30).samples_per_midi_message
      = 3 := by
    show truncInt ((30 : ℝ) / (AudioProcessor.construct 0 0 0).midi_message_rate) = 3
    have : (30 : ℝ) / (AudioProcessor.construct 0 0 0).midi_message_rate = 3 := by
      norm_num [AudioProcessor.construct]
    rw [this]
    unfold truncInt
    rw [if_pos (by norm_num)]
    rw [Int.floor_eq_iff]
    norm_num
  have hS : 0 < ((AudioProcessor.construct 0 0 0).prepareToPlay 30).samples_per_midi_message := by
    rw [hS3]
    norm_num
  exact ⟨hS, (C5_decimation (AudioProcessor.construct 0 0 0) 30 [0, 0, 0, 0] hS).2.2.1⟩

/-- Counterexample to C6 as stated: the default-constructed processor has
the zero-initialized filter coefficients (`alpha = 0`, `k = 0`, never
recomputed), yet `takeInSample` does not fail — it runs to completion and
stores the gain-scaled input into the lowpass filter's `prev_input`.  No
`UsedBeforePrepared` condition exists in the code. -/
theorem C6_counterexample :
    SignalProcessor.construct.lowFilter.alpha = 0 ∧
    SignalProcessor.construct.lowFilter.k = 0 ∧
    SignalProcessor.construct.highFilter.alpha = 0 ∧
    (SignalProcessor.construct.takeInSample 1).lowFilter.prev_input = 1 := by
  refine ⟨rfl, rfl, rfl, ?_⟩
  rw [takeInSample_lowFilter]
  show (1 : ℝ) * SignalProcessor.construct.gain = 1
  norm_num [SignalProcessor.construct]

/-- Claim C6 (amended): processing a sample before any prepare call does
not fail; `takeInSample` silently computes on the zero-initialized, never
recomputed coefficients (`k = alpha = 0` in both filters), feeding the
gain-scaled sample through the filters and leaving the stale coefficients
in place. -/
theorem C6_no_unprepared_guard (x : ℝ) :
    SignalProcessor.construct.lowFilter.alpha = 0 ∧
    SignalProcessor.construct.lowFilter.k = 0 ∧
    SignalProcessor.construct.highFilter.alpha = 0 ∧
    SignalProcessor.construct.highFilter.k = 0 ∧
    (SignalProcessor.construct.takeInSample x).lowFilter.prev_input
        = x * SignalProcessor.construct.gain ∧
    (SignalProcessor.construct.takeInSample x).lowFilter.alpha = 0 ∧
    (SignalProcessor.construct.takeInSample x).highFilter.alpha = 0 := by
  refine ⟨rfl, rfl, rfl, rfl, ?_, ?_, ?_⟩
  · rw [takeInSample_lowFilter]
    rfl
  · rw [takeInSample_lowFilter]
    rfl
  · rw [takeInSample_highFilter]
    rfl

/-- Counterexample to C7 as stated: `prepareToPlay 0` performs no
validation — the zero sampling frequency is stored in the processor and
in both filters, and the filter coefficients are recomputed by dividing
the angular frequency by it; no `InvalidConfiguration` condition exists. -/
theorem C7_counterexample :
    ((AudioProcessor.construct 0 0 0).prepareToPlay 0).signalProcessor.sampling_frequency
        = 0 ∧
    ((AudioProcessor.construct 0 0 0).prepareToPlay 0).signalProcessor.lowFilter.sampling_frequency
        = 0 ∧
    ((AudioProcessor.construct 0 0 0).prepareToPlay 0).signalProcessor.lowFilter.theta_c
        = 2 * piApprox * 1000 / 0 :=
  ⟨rfl, rfl, rfl⟩

/-- Claim C7 (amended): `prepareToPlay` accepts every sampling frequency,
including zero and negative values: it unconditionally stores the value
into the processor and both filters and recomputes each filter's
`theta_c = 2*pi*cutoff/f`, with no error reported and no guard against
dividing by the new frequency. -/
theorem C7_no_validation (p : AudioProcessor) (f : ℝ) :
    ((p.prepareToPlay f).signalProcessor.sampling_frequency = f) ∧
    ((p.prepareToPlay f).signalProcessor.lowFilter.sampling_frequency = f) ∧
    ((p.prepareToPlay f).signalProcessor.highFilter.sampling_frequency = f) ∧
    ((p.prepareToPlay f).signalProcessor.lowFilter.theta_c
        = 2 * piApprox * p.signalProcessor.lowFilter.cutoff_frequency / f) ∧
    ((p.prepareToPlay f).signalProcessor.highFilter.theta_c
        = 2 * piApprox * p.signalProcessor.highFilter.cutoff_frequency / f) :=
  ⟨rfl, rfl, rfl, rfl, rfl⟩

/-- A processor state with non-default filter memory and envelope level,
used to exhibit what `prepareToPlay` does and does not reset. -/
def dirtyProcessor : AudioProcessor :=
  { AudioProcessor.construct 100 7 7 with
      signalProcessor :=
        { SignalProcessor.construct with
            current_envelope_position := 3
            lowFilter := { prev_input := 5, prev_output := 7 } } }

/-- Counterexample to C8 as stated: `prepareToPlay` leaves the lowpass
filter's `prev_input` at `5` and the envelope level at `3` — it does not
reset the filters' previous-sample fields to `0` and does not zero the
envelope level. -/
theorem C8_counterexample :
    (dirtyProcessor.prepareToPlay 48000).signalProcessor.lowFilter.prev_input = 5 ∧
    (dirtyProcessor.prepareToPlay 48000).signalProcessor.current_envelope_position = 3 ∧
    ¬ ((dirtyProcessor.prepareToPlay 48000).signalProcessor.lowFilter.prev_input = 0 ∧
       (dirtyProcessor.prepareToPlay 48000).signalProcessor.current_envelope_position = 0) := by
  refine ⟨rfl, rfl, ?_⟩
  intro hcontra
  have h5 : (5 : ℝ) = 0 := hcontra.1
  norm_num at h5

/-- Claim C8 (amended): `prepareToPlay` resets the emission counters to
`0`, recomputes `samples_per_midi_message` and both filters' coefficients
from the current cutoffs and the new sampling frequency, and leaves the
logical parameters (`min_val`, `max_val`, `gain`, `decay`, cutoffs)
unchanged — but it does **not** reset the filters'
`prev_input`/`prev_output` and does **not** zero the envelope level. -/
theorem C8_prepare_effects (p : AudioProcessor) (f : ℝ) :
    (p.prepareToPlay f).elapsed_since_midi = 0 ∧
    (p.prepareToPlay f).elapsed_since_drawer = 0 ∧
    (p.prepareToPlay f).samples_per_midi_message
        = truncInt (f / p.midi_message_rate) ∧
    (p.prepareToPlay f).signalProcessor.min_val = p.signalProcessor.min_val ∧
    (p.prepareToPlay f).signalProcessor.max_val = p.signalProcessor.max_val ∧
    (p.prepareToPlay f).signalProcessor.gain = p.signalProcessor.gain ∧
    (p.prepareToPlay f).signalProcessor.decay = p.signalProcessor.decay ∧
    (p.prepareToPlay f).signalProcessor.lowFilter.cutoff_frequency
        = p.signalProcessor.lowFilter.cutoff_frequency ∧
    (p.prepareToPlay f).signalProcessor.highFilter.cutoff_frequency
        = p.signalProcessor.highFilter.cutoff_frequency ∧
    (p.prepareToPlay f).signalProcessor.lowFilter.prev_input
        = p.signalProcessor.lowFilter.prev_input ∧
    (p.prepareToPlay f).signalProcessor.lowFilter.prev_output
        = p.signalProcessor.lowFilter.prev_output ∧
    (p.prepareToPlay f).signalProcessor.highFilter.prev_input
        = p.signalProcessor.highFilter.prev_input ∧
    (p.prepareToPlay f).signalProcessor.highFilter.prev_output
        = p.signalProcessor.highFilter.prev_output ∧
    (p.prepareToPlay f).signalProcessor.current_envelope_position
        = p.signalProcessor.current_envelope_position ∧
    (p.prepareToPlay f).signalProcessor.lowFilter.theta_c
        = 2 * piApprox * p.signalProcessor.lowFilter.cutoff_frequency / f ∧
    (p.prepareToPlay f).signalProcessor.highFilter.theta_c
        = 2 * piApprox * p.signalProcessor.highFilter.cutoff_frequency / f :=
  ⟨rfl, rfl, rfl, rfl, rfl, rfl, rfl, rfl, rfl, rfl, rfl, rfl, rfl, rfl, rfl, rfl⟩

/-- Claim C10: `setSamplingFrequency` recomputes both filters'
coefficients from the new frequency but leaves `decay` unchanged; a decay
computed by an earlier `setRecoveryTimeValue` still reflects the old
sampling frequency, and only a subsequent `setRecoveryTimeValue` computes
the decay from the new frequency. -/
theorem C10_decay_not_recomputed (s : SignalProcessor) (f t u : ℝ) :
    (s.setSamplingFrequency f).decay = s.decay ∧
    (s.setSamplingFrequency f).lowFilter.theta_c
        = 2 * piApprox * s.lowFilter.cutoff_frequency / f ∧
    (s.setSamplingFrequency f).lowFilter.k
        = Real.tan ((s.setSamplingFrequency f).lowFilter.theta_c / 2) ∧
    (s.setSamplingFrequency f).lowFilter.alpha
        = 1 + (s.setSamplingFrequency f).lowFilter.k ∧
    (s.setSamplingFrequency f).highFilter.theta_c
        = 2 * piApprox * s.highFilter.cutoff_frequency / f ∧
    ((s.setRecoveryTimeValue u).setSamplingFrequency f).decay
        = (2 : ℝ) ^ (-1 / (max u 0.001 * s.sampling_frequency)) ∧
    ((s.setSamplingFrequency f).setRecoveryTimeValue t).decay
        = (2 : ℝ) ^ (-1 / (max t 0.001 * f)) :=
  ⟨rfl, rfl, rfl, rfl, rfl, rfl, rfl⟩

end EnvelopeFollower
